import Mathlib

/-!
Verification development for the Qubic-Wallet-Connect credential onboarding
and session orchestration engine.

The definitions below are a shallow embedding of the TypeScript source:
pure helpers become Lean functions over `String` / `List Char` / `List Nat`
(bytes); stateful React hooks become explicit state-passing functions; every
call into an external service (WalletConnect sign client, identity RPC,
vault container, JSZip, TextEncoder/TextDecoder, SubtleCrypto digest,
JSON.parse) is a parameter of the model, bundled into environment
structures, since those libraries are outside the repository.  Fallible
code returns `Except String` (the carried string is the thrown error's
message).
-/

namespace QubicWalletConnect

/-! ## Low-level character and string helpers -/

/-- JavaScript regex `\s` character class (WhiteSpace plus LineTerminator),
by codepoint. -/
def isWs (c : Char) : Bool :=
  let n := c.toNat
  n = 9 || n = 10 || n = 11 || n = 12 || n = 13 ||
  n = 32 || n = 0xa0 || n = 0x1680 ||
  (0x2000 ≤ n && n ≤ 0x200a) ||
  n = 0x2028 || n = 0x2029 || n = 0x202f || n = 0x205f ||
  n = 0x3000 || n = 0xfeff

/-- `String.prototype.trim`: strip leading and trailing `\s` characters. -/
def jsTrim (s : List Char) : List Char :=
  ((s.dropWhile isWs).reverse.dropWhile isWs).reverse

def strTrim (s : String) : String := String.mk (jsTrim s.toList)

/-- `String.prototype.toLowerCase` restricted to ASCII (all characters the
engine feeds it are ASCII). -/
def strToLower (s : String) : String := String.mk (s.toList.map Char.toLower)

/-- Hexadecimal digit value, the character class `[0-9a-fA-F]`
(codepoint ranges 48-57, 97-102, 65-70). -/
def hexDigitVal (c : Char) : Option Nat :=
  let n := c.toNat
  if 48 ≤ n ∧ n ≤ 57 then some (n - 48)
  else if 97 ≤ n ∧ n ≤ 102 then some (n - 97 + 10)
  else if 65 ≤ n ∧ n ≤ 70 then some (n - 65 + 10)
  else none

def isHexDigit (c : Char) : Bool := (hexDigitVal c).isSome

/-! ## `qubicIdentity.ts`: hex/byte conversion (`bytesToHex`, `hexToBytes`) -/

/-- `byte.toString(16).padStart(2, "0")` for a byte value.  `Nat.toDigits 16`
produces the same lowercase hex digits as JavaScript `Number.toString(16)`
for naturals. -/
def byteToHexPair (b : Nat) : List Char :=
  let s := Nat.toDigits 16 b
  if s.length < 2 then '0' :: s else s

/-- `bytesToHex`: map each byte to its two lowercase hex digits and join. -/
def bytesToHex (bytes : List Nat) : List Char :=
  (bytes.map byteToHexPair).flatten

/-- Strip a literal leading `0x` (the case-sensitive regex `/^0x/`). -/
def strip0x (s : List Char) : List Char :=
  match s with
  | c1 :: c2 :: rest => if c1 = '0' ∧ c2 = 'x' then rest else s
  | _ => s

/-- `parseInt(chunk, 16)` followed by storage into a `Uint8Array` slot:
the longest hex-digit prefix is interpreted; an empty prefix gives `NaN`,
which the typed array coerces to `0`. -/
def jsParseHex (s : List Char) : Nat :=
  (s.takeWhile isHexDigit).foldl (fun acc c => 16 * acc + (hexDigitVal c).getD 0) 0

/-- The `for (index += 2)` loop of `hexToBytes`: consume two characters at a
time (the final odd chunk can never occur under the even-length guard). -/
def hexPairsToBytes : List Char → List Nat
  | [] => []
  | c1 :: c2 :: rest => jsParseHex [c1, c2] :: hexPairsToBytes rest
  | [c] => [jsParseHex [c]]

/-- `hexToBytes`: strip `0x`, throw on odd length, decode pairs. -/
def hexToBytes (hex : List Char) : Except String (List Nat) :=
  let value := strip0x hex
  if value.length % 2 ≠ 0 then
    .error "Private key hex length must be even."
  else
    .ok (hexPairsToBytes value)

/-! Supporting lemmas for the hex round trips. -/

set_option maxRecDepth 8192 in
theorem byteToHexPair_eq (b : Nat) (hb : b < 256) :
    byteToHexPair b = [Nat.digitChar (b / 16), Nat.digitChar (b % 16)] := by
  revert hb; revert b; decide

theorem hexDigitVal_digitChar (v : Nat) (hv : v < 16) :
    hexDigitVal (Nat.digitChar v) = some v := by
  revert hv; revert v; decide

theorem jsParseHex_pair (c1 c2 : Char) (v1 v2 : Nat)
    (h1 : hexDigitVal c1 = some v1) (h2 : hexDigitVal c2 = some v2) :
    jsParseHex [c1, c2] = 16 * v1 + v2 := by
  have hx1 : isHexDigit c1 = true := by simp [isHexDigit, h1]
  have hx2 : isHexDigit c2 = true := by simp [isHexDigit, h2]
  simp [jsParseHex, List.takeWhile_cons, hx1, hx2, h1, h2]

theorem jsParseHex_byteToHexPair (b : Nat) (hb : b < 256) :
    jsParseHex (byteToHexPair b) = b := by
  rw [byteToHexPair_eq b hb,
      jsParseHex_pair _ _ (b / 16) (b % 16)
        (hexDigitVal_digitChar _ (by omega)) (hexDigitVal_digitChar _ (by omega))]
  omega

theorem digitChar_ne_x (v : Nat) (hv : v < 16) : Nat.digitChar v ≠ 'x' := by
  revert hv; revert v; decide

theorem hexPairsToBytes_bytesToHex (bs : List Nat) (h : ∀ b ∈ bs, b < 256) :
    hexPairsToBytes (bytesToHex bs) = bs := by
  induction bs with
  | nil => rfl
  | cons b rest ih =>
    have hb : b < 256 := h b (List.mem_cons_self b rest)
    have hrest : ∀ x ∈ rest, x < 256 := fun x hx => h x (List.mem_cons_of_mem b hx)
    have hpair : jsParseHex [Nat.digitChar (b / 16), Nat.digitChar (b % 16)] = b := by
      rw [jsParseHex_pair _ _ (b / 16) (b % 16)
            (hexDigitVal_digitChar _ (by omega)) (hexDigitVal_digitChar _ (by omega))]
      omega
    have htail := ih hrest
    rw [bytesToHex] at htail ⊢
    rw [List.map_cons, List.flatten_cons, byteToHexPair_eq b hb, List.cons_append,
      List.cons_append, List.nil_append, hexPairsToBytes, hpair, htail]

theorem strip0x_of_snd_ne_x (c1 c2 : Char) (t : List Char) (h : c2 ≠ 'x') :
    strip0x (c1 :: c2 :: t) = c1 :: c2 :: t := by
  rw [strip0x]
  simp [h]

theorem strip0x_bytesToHex (bs : List Nat) (h : ∀ b ∈ bs, b < 256) :
    strip0x (bytesToHex bs) = bytesToHex bs := by
  cases bs with
  | nil => rfl
  | cons b rest =>
    have hb : b < 256 := h b (List.mem_cons_self b rest)
    rw [bytesToHex, List.map_cons, List.flatten_cons, byteToHexPair_eq b hb,
      List.cons_append, List.cons_append, List.nil_append]
    exact strip0x_of_snd_ne_x _ _ _ (digitChar_ne_x _ (by omega))

theorem bytesToHex_length (bs : List Nat) (h : ∀ b ∈ bs, b < 256) :
    (bytesToHex bs).length = 2 * bs.length := by
  induction bs with
  | nil => rfl
  | cons b rest ih =>
    have hb : b < 256 := h b (List.mem_cons_self b rest)
    have hrest : ∀ x ∈ rest, x < 256 := fun x hx => h x (List.mem_cons_of_mem b hx)
    have htail := ih hrest
    rw [bytesToHex] at htail ⊢
    rw [List.map_cons, List.flatten_cons, List.length_append, htail,
      byteToHexPair_eq b hb]
    simp
    omega

/-- Round trip bytes → hex → bytes. -/
theorem hexToBytes_bytesToHex (bs : List Nat) (h : ∀ b ∈ bs, b < 256) :
    hexToBytes (bytesToHex bs) = .ok bs := by
  rw [hexToBytes, strip0x_bytesToHex bs h]
  have hlen : (bytesToHex bs).length = 2 * bs.length := bytesToHex_length bs h
  rw [hlen]
  simp [Nat.mul_mod_right, hexPairsToBytes_bytesToHex bs h]

theorem digitChar_toLower (c : Char) (v : Nat) (h : hexDigitVal c = some v) :
    Nat.digitChar v = c.toLower := by
  have hc : Char.ofNat c.toNat = c := Char.ofNat_toNat c
  unfold hexDigitVal at h
  simp only [] at h
  split_ifs at h with h1 h2 h3 <;>
    (injection h with h; subst h; rw [← hc]; obtain ⟨hl, hr⟩ := ‹_ ∧ _›;
     interval_cases (c.toNat) <;> decide)

theorem hexDigit_lt_16 (c : Char) (v : Nat) (h : hexDigitVal c = some v) :
    v < 16 := by
  unfold hexDigitVal at h
  simp only [] at h
  split_ifs at h <;> (injection h with h; omega)

/-- Round trip hex → bytes → hex on an even-length all-hex-digit string:
the result is the input lowercased. -/
theorem bytesToHex_hexPairsToBytes (s : List Char)
    (hhex : ∀ c ∈ s, isHexDigit c = true) (heven : s.length % 2 = 0) :
    bytesToHex (hexPairsToBytes s) = s.map Char.toLower ∧
      ∀ b ∈ hexPairsToBytes s, b < 256 := by
  induction s using hexPairsToBytes.induct with
  | case1 => exact ⟨rfl, by intro b hb; cases hb⟩
  | case2 c1 c2 rest ih =>
    obtain ⟨v1, h1⟩ : ∃ v, hexDigitVal c1 = some v := by
      have := hhex c1 (by simp)
      rw [isHexDigit, Option.isSome_iff_exists] at this
      exact ⟨this.choose, this.choose_spec⟩
    obtain ⟨v2, h2⟩ : ∃ v, hexDigitVal c2 = some v := by
      have := hhex c2 (by simp)
      rw [isHexDigit, Option.isSome_iff_exists] at this
      exact ⟨this.choose, this.choose_spec⟩
    have hv1 := hexDigit_lt_16 _ _ h1
    have hv2 := hexDigit_lt_16 _ _ h2
    have hb : 16 * v1 + v2 < 256 := by omega
    have heven2 : rest.length % 2 = 0 := by
      simp only [List.length_cons] at heven
      omega
    have hrest := ih (fun c hc => hhex c (by simp [hc])) heven2
    rw [hexPairsToBytes, jsParseHex_pair _ _ _ _ h1 h2]
    constructor
    · rw [bytesToHex, List.map_cons, List.flatten_cons]
      rw [bytesToHex] at hrest
      rw [hrest.1, byteToHexPair_eq _ hb]
      have e1 : (16 * v1 + v2) / 16 = v1 := by omega
      have e2 : (16 * v1 + v2) % 16 = v2 := by omega
      rw [e1, e2, digitChar_toLower _ _ h1, digitChar_toLower _ _ h2]
      rfl
    · intro b hmem
      rcases List.mem_cons.mp hmem with hb' | hb'
      · omega
      · exact hrest.2 b hb'
  | case3 c => simp at heven

/-- Helper direction: decoding an even-length all-hex string succeeds and
re-encoding gives the lowercased input. -/
theorem hexToBytes_roundtrip (h : List Char)
    (hhex : ∀ c ∈ strip0x h, isHexDigit c = true)
    (heven : (strip0x h).length % 2 = 0) :
    hexToBytes h = .ok (hexPairsToBytes (strip0x h)) ∧
      bytesToHex (hexPairsToBytes (strip0x h)) = (strip0x h).map Char.toLower := by
  refine ⟨?_, (bytesToHex_hexPairsToBytes _ hhex heven).1⟩
  rw [hexToBytes]
  simp [heven]

/-- C10: `bytesToHex` and `hexToBytes` are mutually inverse: decoding the
encoding of any byte list gives it back; encoding the decoding of any
even-length hex-digit string (after the optional `0x` prefix is stripped)
gives the string lowercased with the prefix removed; and `hexToBytes`
throws exactly when the input, after stripping a `0x` prefix, has odd
length. -/
theorem claim_C10 :
    (∀ bs : List Nat, (∀ b ∈ bs, b < 256) → hexToBytes (bytesToHex bs) = .ok bs) ∧
    (∀ h : List Char, (∀ c ∈ strip0x h, isHexDigit c = true) →
      (strip0x h).length % 2 = 0 →
      ∃ bs, hexToBytes h = .ok bs ∧ bytesToHex bs = (strip0x h).map Char.toLower) ∧
    (∀ h : List Char, (∃ msg, hexToBytes h = .error msg) ↔ (strip0x h).length % 2 = 1) := by
  refine ⟨hexToBytes_bytesToHex, ?_, ?_⟩
  · intro h hhex heven
    obtain ⟨h1, h2⟩ := hexToBytes_roundtrip h hhex heven
    exact ⟨_, h1, h2⟩
  · intro h
    rw [hexToBytes]
    constructor
    · intro ⟨msg, hmsg⟩
      by_cases he : (strip0x h).length % 2 ≠ 0
      · omega
      · simp [he] at hmsg
    · intro hodd
      have : (strip0x h).length % 2 ≠ 0 := by omega
      simp [this]

/-- Witness for C10 at concrete inputs. -/
theorem claim_C10_witness :
    hexToBytes (bytesToHex [0, 171, 255]) = .ok [0, 171, 255] ∧
    (∃ bs, hexToBytes ['0', 'x', 'A', 'b'] = .ok bs ∧
      bytesToHex bs = (strip0x ['0', 'x', 'A', 'b']).map Char.toLower) ∧
    ((∃ msg, hexToBytes ['0', 'x', 'a'] = .error msg) ↔
      (strip0x ['0', 'x', 'a']).length % 2 = 1) :=
  ⟨claim_C10.1 [0, 171, 255] (by decide),
   claim_C10.2.1 ['0', 'x', 'A', 'b'] (by decide) (by decide),
   claim_C10.2.2 ['0', 'x', 'a']⟩

/-! ## Credential classifier (`classifySeed` and the regex helpers) -/

/-- The chunks produced by `split(/\s+/)` followed by `.filter(Boolean)`:
maximal runs of non-whitespace characters.  The accumulator holds the
current word reversed. -/
def wordsAux : List Char → List Char → List (List Char)
  | [], acc => if acc.isEmpty then [] else [acc.reverse]
  | c :: rest, acc =>
    if isWs c then
      if acc.isEmpty then wordsAux rest [] else acc.reverse :: wordsAux rest []
    else wordsAux rest (c :: acc)

/-- `normalized.split(/\s+/).filter(Boolean)`. -/
def wordsOf (s : List Char) : List (List Char) := wordsAux s []

/-- `SeedClassification` — the tagged union returned by `classifySeed`. -/
inductive SeedClassification
  | valid (descriptor : String)
  | invalid
deriving DecidableEq, Repr

/-- `classifySeed`: trim, count whitespace-separated words, and test the
whitespace-stripped text against `/^[0-9a-fA-F]{64}$/`; a 12-24 word
count wins over the hex test. -/
def classifySeed (seed : String) : SeedClassification :=
  let normalized := jsTrim seed.toList
  let words := wordsOf normalized
  let compact := normalized.filter (fun c => !isWs c)
  if 12 ≤ words.length ∧ words.length ≤ 24 then
    .valid (toString words.length ++ "-word mnemonic")
  else if compact.length = 64 ∧ compact.all isHexDigit then
    .valid "64-character private key"
  else
    .invalid

/-- `QUBIC_SEED_REGEX = /^[a-z]{55,}$/` applied to a string. -/
def isQubicSeed (value : String) : Bool :=
  55 ≤ value.toList.length &&
    value.toList.all (fun c => 97 ≤ c.toNat && c.toNat ≤ 122)

/-- `isHexPrivateKey`: strip a case-sensitive `0x` and test
`/^[0-9a-fA-F]{64}$/`. -/
def isHexPrivateKey (value : String) : Bool :=
  let stripped := strip0x value.toList
  stripped.length = 64 && stripped.all isHexDigit

/-- `QUBIC_IDENTITY_REGEX = /^[A-Z]{60}$/`. -/
def isQubicIdentity (value : String) : Bool :=
  value.toList.length = 60 &&
    value.toList.all (fun c => 65 ≤ c.toNat && c.toNat ≤ 90)

/-- `normalizeSeedInput`: trim then lowercase. -/
def normalizeSeedInput (value : String) : String := strToLower (strTrim value)

/-- Strip a leading `0x` case-insensitively (`/^0x/i`). -/
def strip0xCI (s : List Char) : List Char :=
  match s with
  | c1 :: c2 :: rest => if c1 = '0' ∧ (c2 = 'x' ∨ c2 = 'X') then rest else s
  | _ => s

/-- `normalizePrivateKeyInput`: trim then strip `0x` case-insensitively. -/
def normalizePrivateKeyInput (value : String) : String :=
  String.mk (strip0xCI (jsTrim value.toList))

/-! Lemmas about `wordsOf`. -/

theorem wordsAux_allWs (r : List Char) (hr : ∀ c ∈ r, isWs c = true) (acc : List Char) :
    wordsAux r acc = if acc.isEmpty then [] else [acc.reverse] := by
  induction r generalizing acc with
  | nil => rfl
  | cons c r ih =>
    have hc := hr c (by simp)
    have hr2 : ∀ x ∈ r, isWs x = true := fun x hx => hr x (by simp [hx])
    rw [wordsAux, hc]
    simp only [if_true]
    by_cases hacc : acc.isEmpty
    · rw [if_pos hacc, ih hr2 [], if_pos hacc]
      rfl
    · rw [if_neg hacc, ih hr2 [], if_neg hacc]
      rfl

theorem wordsAux_append_wsRun (r : List Char) (hr : ∀ c ∈ r, isWs c = true)
    (s : List Char) (acc : List Char) :
    wordsAux (s ++ r) acc = wordsAux s acc := by
  induction s generalizing acc with
  | nil =>
    rw [List.nil_append, wordsAux_allWs r hr acc]
    rfl
  | cons a s ih =>
    rw [List.cons_append, wordsAux, wordsAux]
    by_cases ha : isWs a
    · rw [if_pos ha, if_pos ha]
      by_cases hacc : acc.isEmpty
      · rw [if_pos hacc, if_pos hacc, ih]
      · rw [if_neg hacc, if_neg hacc, ih]
    · rw [if_neg ha, if_neg ha, ih]

theorem wordsAux_consume_word (w : List Char) (hw : ∀ c ∈ w, isWs c = false)
    (s : List Char) (acc : List Char) :
    wordsAux (w ++ s) acc = wordsAux s (w.reverse ++ acc) := by
  induction w generalizing acc with
  | nil => rfl
  | cons c w ih =>
    have hc := hw c (by simp)
    have hw2 : ∀ x ∈ w, isWs x = false := fun x hx => hw x (by simp [hx])
    rw [List.cons_append, wordsAux, if_neg (by simp [hc]), ih hw2]
    simp

/-- The specification-side notion "the string consists of exactly these
whitespace-separated words": leading/trailing whitespace allowed, each word
nonempty and whitespace-free, consecutive words separated by at least one
whitespace character. -/
inductive WordsRepr : List Char → List (List Char) → Prop
  | nil : WordsRepr [] []
  | ws {c : Char} {s : List Char} {l : List (List Char)} :
      isWs c = true → WordsRepr s l → WordsRepr (c :: s) l
  | word {w s : List Char} {l : List (List Char)} :
      w ≠ [] → (∀ c ∈ w, isWs c = false) →
      (s = [] ∨ ∃ c s2, s = c :: s2 ∧ isWs c = true) →
      WordsRepr s l → WordsRepr (w ++ s) (w :: l)

/-- `wordsOf` recovers exactly the words of any represented decomposition. -/
theorem wordsAux_nil_acc (acc : List Char) (h : acc ≠ []) :
    wordsAux [] acc = [acc.reverse] := by
  rw [wordsAux]
  simp [h]

theorem wordsAux_cons_ws_acc (c : Char) (s acc : List Char)
    (hc : isWs c = true) (h : acc ≠ []) :
    wordsAux (c :: s) acc = acc.reverse :: wordsAux s [] := by
  rw [wordsAux]
  simp [hc, h]

theorem wordsAux_cons_ws (c : Char) (s : List Char) (hc : isWs c = true) :
    wordsAux (c :: s) [] = wordsAux s [] := by
  rw [wordsAux]
  simp [hc]

theorem wordsOf_of_repr {s : List Char} {l : List (List Char)}
    (h : WordsRepr s l) : wordsOf s = l := by
  induction h with
  | nil => rfl
  | ws hc _ ih =>
    rename_i c s l _
    show wordsAux (c :: s) [] = l
    rw [wordsAux_cons_ws _ _ hc]
    exact ih
  | word hne hnw hsep _ ih =>
    rename_i w s l _
    show wordsAux (w ++ s) [] = w :: l
    rw [wordsAux_consume_word w hnw s []]
    have hrne : w.reverse ++ [] ≠ [] := by simp [hne]
    rcases hsep with hs | ⟨c, s2, hs, hc⟩
    · subst hs
      have hl : l = [] := by simpa [wordsOf] using ih.symm
      subst hl
      rw [wordsAux_nil_acc _ hrne]
      simp
    · subst hs
      have ihs : wordsAux s2 [] = l := by
        have h2 : wordsAux (c :: s2) [] = l := ih
        rwa [wordsAux_cons_ws _ _ hc] at h2
      rw [wordsAux_cons_ws_acc _ _ _ hc hrne, ihs]
      simp

theorem wordsOf_dropWhile (s : List Char) :
    wordsOf (s.dropWhile isWs) = wordsOf s := by
  induction s with
  | nil => rfl
  | cons c s ih =>
    by_cases hc : isWs c
    · rw [List.dropWhile_cons_of_pos hc, ih]
      exact (wordsAux_cons_ws c s hc).symm
    · rw [List.dropWhile_cons_of_neg hc]

theorem wordsOf_jsTrim (s : List Char) : wordsOf (jsTrim s) = wordsOf s := by
  rw [jsTrim]
  set t := s.dropWhile isWs with ht
  have hdecomp : t = (t.reverse.dropWhile isWs).reverse ++ (t.reverse.takeWhile isWs).reverse := by
    conv_lhs => rw [← List.reverse_reverse t, ← List.takeWhile_append_dropWhile (p := isWs) (l := t.reverse)]
    rw [List.reverse_append]
  have hws : ∀ c ∈ (t.reverse.takeWhile isWs).reverse, isWs c = true := by
    intro c hc
    rw [List.mem_reverse] at hc
    exact List.mem_takeWhile_imp hc
  calc wordsOf (t.reverse.dropWhile isWs).reverse
      = wordsOf ((t.reverse.dropWhile isWs).reverse ++ (t.reverse.takeWhile isWs).reverse) := by
        rw [wordsOf, wordsOf, wordsAux_append_wsRun _ hws]
    _ = wordsOf t := by rw [← hdecomp]
    _ = wordsOf s := wordsOf_dropWhile s

theorem hexDigit_ranges (c : Char) (h : isHexDigit c = true) :
    (48 ≤ c.toNat ∧ c.toNat ≤ 57) ∨ (97 ≤ c.toNat ∧ c.toNat ≤ 102) ∨
      (65 ≤ c.toNat ∧ c.toNat ≤ 70) := by
  rw [isHexDigit] at h
  unfold hexDigitVal at h
  simp only [] at h
  split_ifs at h with h1 h2 h3
  · exact Or.inl h1
  · exact Or.inr (Or.inl h2)
  · exact Or.inr (Or.inr h3)
  · simp at h

theorem hexDigit_not_ws (c : Char) (h : isHexDigit c = true) : isWs c = false := by
  have hr := hexDigit_ranges c h
  rw [isWs]
  simp only [Bool.or_eq_false_iff, decide_eq_false_iff_not, Bool.and_eq_false_iff,
    decide_eq_true_eq, Bool.not_eq_true]
  omega

theorem filter_dropWhile_isWs (l : List Char) :
    (l.dropWhile isWs).filter (fun c => !isWs c) = l.filter (fun c => !isWs c) := by
  induction l with
  | nil => rfl
  | cons c l ih =>
    by_cases hc : isWs c
    · rw [List.dropWhile_cons_of_pos hc, ih, List.filter_cons_of_neg (by simp [hc])]
    · rw [List.dropWhile_cons_of_neg hc]

theorem compact_jsTrim (s : List Char) :
    (jsTrim s).filter (fun c => !isWs c) = s.filter (fun c => !isWs c) := by
  rw [jsTrim, List.filter_reverse, filter_dropWhile_isWs, List.filter_reverse,
    List.reverse_reverse, filter_dropWhile_isWs]

/-- C6 (amended): `classifySeed` classifies every string of 12-24
whitespace-separated words as a mnemonic with the exact word count; every
bare 64-hex-digit string (no `0x` prefix — `classifySeed` does not strip
one, see the counterexample) as a hex key; and a string is classified
Invalid exactly when its word count is outside 12-24 and the string with
all whitespace removed is not 64 hex digits. -/
theorem claim_C6 :
    (∀ (s : String) (l : List (List Char)), WordsRepr s.toList l →
      12 ≤ l.length → l.length ≤ 24 →
      classifySeed s = .valid (toString l.length ++ "-word mnemonic")) ∧
    (∀ s : String, s.toList.length = 64 → (∀ c ∈ s.toList, isHexDigit c = true) →
      classifySeed s = .valid "64-character private key") ∧
    (∀ s : String, classifySeed s = .invalid ↔
      ¬(12 ≤ (wordsOf s.toList).length ∧ (wordsOf s.toList).length ≤ 24) ∧
      ¬((s.toList.filter (fun c => !isWs c)).length = 64 ∧
        (s.toList.filter (fun c => !isWs c)).all isHexDigit = true)) := by
  refine ⟨?_, ?_, ?_⟩
  · intro s l hrepr h12 h24
    have hw : wordsOf (jsTrim s.toList) = l := by
      rw [wordsOf_jsTrim, wordsOf_of_repr hrepr]
    rw [classifySeed]
    simp only [hw]
    rw [if_pos ⟨h12, h24⟩]
  · intro s hlen hhex
    have hnw : ∀ c ∈ s.toList, isWs c = false := fun c hc =>
      hexDigit_not_ws c (hhex c hc)
    have hne : s.toList ≠ [] := by
      intro h
      rw [h] at hlen
      simp at hlen
    have hrepr : WordsRepr s.toList [s.toList] := by
      have := WordsRepr.word hne hnw (Or.inl rfl) WordsRepr.nil
      rwa [List.append_nil] at this
    have hw : wordsOf (jsTrim s.toList) = [s.toList] := by
      rw [wordsOf_jsTrim, wordsOf_of_repr hrepr]
    have hcompact : (jsTrim s.toList).filter (fun c => !isWs c) = s.toList := by
      rw [compact_jsTrim]
      exact List.filter_eq_self.mpr (fun c hc => by simp [hnw c hc])
    rw [classifySeed]
    simp only [hw, hcompact]
    rw [if_neg (by simp), if_pos ⟨hlen, List.all_eq_true.mpr hhex⟩]
  · intro s
    rw [classifySeed]
    simp only [wordsOf_jsTrim, compact_jsTrim]
    split_ifs with h1 h2
    · exact iff_of_false (by simp) (fun hr => hr.1 h1)
    · exact iff_of_false (by simp) (fun hr => hr.2 h2)
    · exact iff_of_true rfl ⟨h1, h2⟩

/-- C6 counterexample input: a 64-hex-digit key with a `0x` prefix. -/
def hex0x64a : String := "0x" ++ String.mk (List.replicate 64 'a')

/-- C6 counterexample: contrary to the claim, `classifySeed` classifies a
`0x`-prefixed 64-hex-digit key as Invalid (it never strips the prefix; the
prefixed form is handled upstream by `handleSeedSubmit`). -/
theorem claim_C6_counterexample :
    classifySeed hex0x64a = SeedClassification.invalid := by decide

/-- Witness for the amended C6 at concrete inputs. -/
def sepJoin (w : List Char) : Nat → List Char
  | 0 => []
  | 1 => w
  | n + 2 => w ++ ' ' :: sepJoin w (n + 1)

theorem wordsRepr_sepJoin (w : List Char) (hne : w ≠ [])
    (hnw : ∀ c ∈ w, isWs c = false) :
    ∀ n, WordsRepr (sepJoin w (n + 1)) (List.replicate (n + 1) w) := by
  intro n
  induction n with
  | zero =>
    have := WordsRepr.word hne hnw (Or.inl rfl) WordsRepr.nil
    rwa [List.append_nil] at this
  | succ n ih =>
    exact WordsRepr.word hne hnw (Or.inr ⟨' ', _, rfl, by decide⟩)
      (WordsRepr.ws (by decide) ih)

def abandon12 : String := String.mk (sepJoin "abandon".toList 12)

def hex64a : String := String.mk (List.replicate 64 'a')

theorem claim_C6_witness :
    classifySeed abandon12 = .valid (toString (List.replicate 12 "abandon".toList).length ++ "-word mnemonic") ∧
    classifySeed hex64a = .valid "64-character private key" ∧
    (classifySeed "hello" = .invalid ↔
      ¬(12 ≤ (wordsOf "hello".toList).length ∧ (wordsOf "hello".toList).length ≤ 24) ∧
      ¬(("hello".toList.filter (fun c => !isWs c)).length = 64 ∧
        ("hello".toList.filter (fun c => !isWs c)).all isHexDigit = true)) :=
  ⟨claim_C6.1 abandon12 (List.replicate 12 "abandon".toList)
      (wordsRepr_sepJoin "abandon".toList (by decide) (by decide) 11)
      (by decide) (by decide),
   claim_C6.2.1 hex64a (by decide) (by decide),
   claim_C6.2.2 "hello"⟩

/-! ## Shared data model and external-service environment -/

/-- A JSON value, the result of `JSON.parse`. -/
inductive Json where
  | null
  | bool (b : Bool)
  | num (n : Int)
  | str (s : String)
  | arr (items : List Json)
  | obj (fields : List (String × Json))

/-- `DerivedIdentity` returned by the identity service. -/
structure DerivedIdentity where
  publicId : String
  publicKeyHex : String
  privateKeyHex : String
deriving DecidableEq, Repr

/-- The `balance` object inside `IGetBalanceByIdentity`. -/
structure BalanceInfo where
  balance : String
deriving DecidableEq, Repr

structure OwnedAsset where
  assetName : String
  issuerIdentity : String
  ownedAmount : Int
deriving DecidableEq, Repr

/-- `IdentitySnapshot` — both fields absent when the corresponding RPC
query failed. -/
structure IdentitySnapshot where
  balance : Option BalanceInfo := none
  ownedAssets : Option (List OwnedAsset) := none
deriving DecidableEq, Repr

structure SeedIdentityDetails where
  publicId : String
  publicKeyHex : String
  privateKeyHex : String
  balance : Option String := none
  ownedAssetCount : Option Nat := none
deriving DecidableEq, Repr

/-- `buildSeedIdentityDetails`. -/
def buildSeedIdentityDetails (details : DerivedIdentity)
    (snapshot : IdentitySnapshot) : SeedIdentityDetails :=
  { publicId := details.publicId
    publicKeyHex := details.publicKeyHex
    privateKeyHex := details.privateKeyHex
    balance := snapshot.balance.map (fun b => b.balance)
    ownedAssetCount := snapshot.ownedAssets.map (fun l => l.length) }

/-- The external collaborators of the seed and vault pipelines, as opaque
parameters: SubtleCrypto digest, TextEncoder/TextDecoder, JSZip extraction,
JSON.parse, the identity-derivation service, and the snapshot fetch
(total, because `fetchIdentitySnapshot` catches both RPC failures). -/
structure Env where
  digest : List Nat → String
  encode : String → List Nat
  decode : List Nat → String
  unzip : List Nat → Except String String
  parse : String → Option Json
  fromSeed : String → Except String DerivedIdentity
  fromKey : String → Except String DerivedIdentity
  snapshot : String → IdentitySnapshot

/-- `slice(0, n)` on a string. -/
def strTake (s : String) (n : Nat) : String := String.mk (s.toList.take n)

/-- `slice(-n)` on a string. -/
def strTakeRight (s : String) (n : Nat) : String :=
  String.mk (s.toList.drop (s.toList.length - n))

/-! ## `handleSeedSubmit` (seed pipeline) -/

/-- `SeedState` — the seed pipeline state union. -/
inductive SeedState where
  | idle (message : Option String)
  | invalid (message : String)
  | processing (message : String)
  | ready (message : String) (fingerprint : String) (descriptor : String)
      (identity : Option SeedIdentityDetails)
deriving DecidableEq, Repr

/-- One call into an external service, recorded in submission order. -/
inductive ExtCall where
  | deriveSeedCall (seed : String)
  | deriveKeyCall (key : String)
  | snapshotCall (publicId : String)
  | digestCall (payload : String)
deriving DecidableEq, Repr

/-- `handleSeedSubmit`: returns the final `SeedState` together with the
trace of external calls.  The Qubic-seed and hex-private-key patterns are
checked before the generic `classifySeed` path; the generic path only
computes a digest fingerprint (`digestHex` on the normalized input, which
encodes the string first). -/
def handleSeedSubmit (env : Env) (input : String) : SeedState × List ExtCall :=
  let normalized := strTrim input
  if normalized = "" then (.invalid "Seed cannot be empty.", [])
  else
    let qubicSeedCandidate := strToLower normalized
    if isQubicSeed qubicSeedCandidate || isHexPrivateKey normalized then
      let normalizedKey := normalizePrivateKeyInput normalized
      if isQubicSeed qubicSeedCandidate then
        match env.fromSeed qubicSeedCandidate with
        | .error msg => (.invalid msg, [.deriveSeedCall qubicSeedCandidate])
        | .ok details =>
          let snap := env.snapshot details.publicId
          (.ready "Qubic identity derived successfully."
             (strTakeRight details.publicId 24)
             "Qubic deterministic seed"
             (some (buildSeedIdentityDetails details snap)),
           [.deriveSeedCall qubicSeedCandidate, .snapshotCall details.publicId])
      else
        match env.fromKey normalizedKey with
        | .error msg => (.invalid msg, [.deriveKeyCall normalizedKey])
        | .ok details =>
          let snap := env.snapshot details.publicId
          (.ready "Qubic identity derived successfully."
             (strTakeRight details.publicId 24)
             "Raw Schnorr private key"
             (some (buildSeedIdentityDetails details snap)),
           [.deriveKeyCall normalizedKey, .snapshotCall details.publicId])
    else
      match classifySeed normalized with
      | .invalid => (.invalid "Enter 12-24 words or a 64-character private key.", [])
      | .valid descriptor =>
        let fingerprint := env.digest (env.encode normalized)
        (.ready "Seed imported securely." (strTake fingerprint 24) descriptor none,
         [.digestCall normalized])

/-- A trivial environment used to instantiate witnesses. -/
def envNull : Env :=
  { digest := fun _ => ""
    encode := fun _ => []
    decode := fun _ => ""
    unzip := fun _ => .error "no archive"
    parse := fun _ => none
    fromSeed := fun _ => .error "derive failed"
    fromKey := fun _ => .error "derive failed"
    snapshot := fun _ => {} }

/-- C7: on seed submission the network-native-seed pattern and the
hex-private-key pattern take precedence over the generic classification:
whenever either matches, the first external call is the corresponding
identity derivation, regardless of what `classifySeed` would say; and when
neither matches, the only external call the submission can make is a local
digest of the normalized input — identity derivation is never invoked. -/
theorem claim_C7 :
    (∀ (env : Env) (input : String),
      isQubicSeed (strToLower (strTrim input)) = true →
      ∃ rest, (handleSeedSubmit env input).2 =
        ExtCall.deriveSeedCall (strToLower (strTrim input)) :: rest) ∧
    (∀ (env : Env) (input : String),
      isQubicSeed (strToLower (strTrim input)) = false →
      isHexPrivateKey (strTrim input) = true →
      ∃ rest, (handleSeedSubmit env input).2 =
        ExtCall.deriveKeyCall (normalizePrivateKeyInput (strTrim input)) :: rest) ∧
    (∀ (env : Env) (input : String),
      isQubicSeed (strToLower (strTrim input)) = false →
      isHexPrivateKey (strTrim input) = false →
      ∀ c ∈ (handleSeedSubmit env input).2, c = ExtCall.digestCall (strTrim input)) := by
  refine ⟨?_, ?_, ?_⟩
  · intro env input hq
    have hne : strTrim input ≠ "" := by
      intro h
      rw [h] at hq
      exact absurd hq (by decide)
    rw [handleSeedSubmit]
    simp only [if_neg hne, hq, Bool.true_or, if_pos rfl, if_true]
    cases env.fromSeed (strToLower (strTrim input)) <;> exact ⟨_, rfl⟩
  · intro env input hq hx
    have hne : strTrim input ≠ "" := by
      intro h
      rw [h] at hx
      exact absurd hx (by decide)
    rw [handleSeedSubmit]
    simp only [if_neg hne, hq, hx, Bool.false_or, if_true, Bool.false_eq_true, if_false]
    cases env.fromKey (normalizePrivateKeyInput (strTrim input)) <;> exact ⟨_, rfl⟩
  · intro env input hq hx
    rw [handleSeedSubmit]
    by_cases hne : strTrim input = ""
    · simp [hne]
    · simp only [if_neg hne, hq, hx, Bool.or_self, Bool.false_eq_true, if_false]
      cases classifySeed (strTrim input) <;> simp

/-- Witness for C7: a 64-character all-`a` string matches both the
Qubic-seed pattern and the hex pattern, and the seed path wins; the
12-times-repeated word `abandon` takes the generic path where only the
digest is computed. -/
theorem claim_C7_witness :
    (∃ rest, (handleSeedSubmit envNull hex64a).2 =
      ExtCall.deriveSeedCall (strToLower (strTrim hex64a)) :: rest) ∧
    (∃ rest, (handleSeedSubmit envNull "0xBBBBBBBBBBBBBBBBBBBBBBBBBBBBBBBBBBBBBBBBBBBBBBBBBBBBBBBBBBBBBBBB").2 =
      ExtCall.deriveKeyCall (normalizePrivateKeyInput (strTrim "0xBBBBBBBBBBBBBBBBBBBBBBBBBBBBBBBBBBBBBBBBBBBBBBBBBBBBBBBBBBBBBBBB")) :: rest) ∧
    (∀ c ∈ (handleSeedSubmit envNull abandon12).2,
      c = ExtCall.digestCall (strTrim abandon12)) :=
  ⟨claim_C7.1 envNull hex64a (by decide),
   claim_C7.2.1 envNull _ (by decide) (by decide),
   claim_C7.2.2 envNull abandon12 (by decide) (by decide)⟩

/-! ## Session state machine (`useWalletDashboard` Qubic session pipeline) -/

inductive ConnectionState where
  | idle | connecting | connected | error
deriving DecidableEq, Repr

inductive Transport where
  | native | walletconnect
deriving DecidableEq, Repr

structure QubicAsset where
  assetName : String
  issuerIdentity : String
  ownedAmount : Int
deriving DecidableEq, Repr

structure QubicAccount where
  address : String
  name : Option String := none
  amount : Option Int := none
  assets : Option (List QubicAsset) := none
deriving DecidableEq, Repr

structure QubicSession where
  topic : String
  address : String
  chainId : String
  expiry : Option Int := none
  walletName : Option String := none
  walletUrl : Option String := none
  accounts : Option (List QubicAccount) := none
  transport : Transport
deriving DecidableEq, Repr

/-- The Qubic-session slice of the dashboard state (`qubicSessionRef`
mirrors `qubicSession` and is represented by the same field). -/
structure DashState where
  qubicStatus : ConnectionState
  qubicMessage : Option String := none
  qubicSession : Option QubicSession := none
  walletConnectUri : Option String := none
deriving DecidableEq, Repr

/-- The subset of a WalletConnect `SessionTypes.Struct` the engine reads:
`qubicAccounts` is `namespaces.qubic.accounts` (`none` when the session has
no `qubic` namespace). -/
structure WCSessionStruct where
  topic : String
  qubicAccounts : Option (List String) := none
  expiry : Option Int := none
  peerName : Option String := none
  peerUrl : Option String := none
deriving DecidableEq, Repr

/-- `shorten`. -/
def shorten (value : Option String) (size : Nat := 4) : String :=
  match value with
  | none => ""
  | some v =>
    if v = "" then ""
    else if v.toList.length ≤ size * 2 + 2 then v
    else strTake v size ++ "…" ++ strTakeRight v size

/-- `formatExpiryRelative` (`now` is `Date.now()`; a zero timestamp is
falsy in JavaScript and renders as a dash). -/
def formatExpiryRelative (now : Int) (timestamp : Option Int) : String :=
  match timestamp with
  | none => "—"
  | some ts =>
    if ts = 0 then "—"
    else
      let diff := ts - now
      if diff ≤ 0 then "expired"
      else
        let minutes := diff / 60000
        if minutes < 60 then "in " ++ toString minutes ++ "m"
        else
          let hours := minutes / 60
          if hours < 24 then "in " ++ toString hours ++ "h"
          else "in " ++ toString (hours / 24) ++ "d"

/-- `value.split(sep)` for a single-character separator, on character
lists (structurally recursive so that proofs and evaluation reduce). -/
def splitOnChar (sep : Char) : List Char → List (List Char)
  | [] => [[]]
  | c :: rest =>
    match splitOnChar sep rest with
    | [] => [[c]]
    | h :: t => if c = sep then [] :: h :: t else (c :: h) :: t

/-- `parseQubicAccountString`: split a `namespace:chain:address` string;
missing or empty components give `null`. -/
def parseQubicAccountString (value : Option String) : Option (String × String × String) :=
  match value with
  | none => none
  | some v =>
    if v = "" then none
    else
      match splitOnChar ':' v.toList with
      | ns :: chainId :: addr :: _ =>
        if ns = [] ∨ chainId = [] ∨ addr = [] then none
        else some (String.mk ns, String.mk chainId, String.mk addr)
      | _ => none

/-- `hydrateQubicSession`: rebuild the session record from an approved
WalletConnect session, carrying over only the previous `accounts` array;
returns the state unchanged when the `qubic` namespace or a parseable
primary account is missing. -/
def hydrateQubicSession (now : Int) (session : WCSessionStruct) (st : DashState) : DashState :=
  match session.qubicAccounts with
  | none => st
  | some accounts =>
    match parseQubicAccountString accounts.head? with
    | none => st
    | some (_, chainId, address) =>
      let expiryMs := session.expiry.map (fun e => e * 1000)
      { st with
        qubicSession := some
          { topic := session.topic
            address := address
            chainId := chainId
            expiry := expiryMs
            walletName := session.peerName
            walletUrl := session.peerUrl
            accounts := st.qubicSession.bind (fun p => p.accounts)
            transport := Transport.walletconnect }
        qubicStatus := ConnectionState.connected
        qubicMessage := some ("Linked " ++ shorten (some address) ++ " · " ++
          formatExpiryRelative now expiryMs) }

/-- A call made on the WalletConnect sign client, in order. -/
inductive ClientCall where
  | disconnectCall (topic : String)
  | connectCall
  | requestCall (topic : String) (method : String)
deriving DecidableEq, Repr

/-- `fetchAccountsSnapshot`: best-effort `qubic_requestAccounts`; a failure
or an empty response leaves the state unchanged, a non-empty response
replaces the session accounts array.  `res` is the request outcome. -/
def fetchAccountsSnapshot (res : Except String (List QubicAccount))
    (topic : String) (st : DashState) : DashState × List ClientCall :=
  let calls := [ClientCall.requestCall topic "qubic_requestAccounts"]
  match res with
  | .error _ => (st, calls)
  | .ok response =>
    match response with
    | [] => (st, calls)
    | a :: _ =>
      ({ st with
          qubicSession := st.qubicSession.map (fun (p : QubicSession) => { p with accounts := some response })
          qubicMessage := some ("Primary " ++ shorten (some a.address) ++ " · " ++
            toString response.length ++ " account" ++
            (if response.length > 1 then "s" else "")) },
       calls)

def strContains (hay pat : String) : Bool := decide (pat.toList <:+: hay.toList)

def wcFallbackGuidance : String :=
  "The demo WalletConnect project ID doesn’t allow this domain. Create your own project at https://cloud.walletconnect.com, whitelist this domain, and set NEXT_PUBLIC_WALLETCONNECT_PROJECT_ID."

def wcOwnGuidance : String :=
  "WalletConnect rejected this origin. Add this domain to your project at https://cloud.walletconnect.com and verify NEXT_PUBLIC_WALLETCONNECT_PROJECT_ID is set correctly."

/-- The `catch` handler of the WalletConnect branch of `connectQubic`. -/
def wcCatch (usingFallback : Bool) (msg : String) (st : DashState) : DashState :=
  let base := { st with walletConnectUri := none, qubicStatus := ConnectionState.error }
  if strContains (strToLower msg) "origin not allowed" || strContains msg "code: 3000" then
    { base with qubicMessage := some (if usingFallback then wcFallbackGuidance else wcOwnGuidance) }
  else
    { base with qubicMessage := some msg }

structure NativeObj where
  address : Option String := none
  name : Option String := none
  amount : Option Int := none
deriving DecidableEq, Repr

/-- One element of the native provider response: a plain address string, a
structured account object, or anything falsy/non-object. -/
inductive NativeItem where
  | str (s : String)
  | obj (o : NativeObj)
  | undef
deriving DecidableEq, Repr

inductive NativeResp where
  | arr (items : List NativeItem)
  | single (item : NativeItem)
deriving DecidableEq, Repr

/-- Outcome of `client.connect` (pairing URI) plus the later `approval()`. -/
structure WCConnectResult where
  uri : Option String := none
  approval : Except String WCSessionStruct

/-- The environment of one `connectQubic` invocation: native provider
presence and response, configuration, and the outcomes of each sign-client
call. -/
structure ConnectEnv where
  native : Option (Except String NativeResp)
  projectId : String
  usingFallback : Bool
  clientInit : Except String Unit
  disconnectOld : Except String Unit
  wcConnect : Except String WCConnectResult
  requestAccounts : Except String (List QubicAccount)

/-- The continuation of `connectQubic` after `await approval()` resolves:
clear the pairing URI, hydrate the session, then the best-effort accounts
snapshot.  Applied to whatever the dashboard state is at resolution time. -/
def wcApprovalContinuation (now : Int) (requestRes : Except String (List QubicAccount))
    (session : WCSessionStruct) (st : DashState) : DashState × List ClientCall :=
  let st2 := hydrateQubicSession now session { st with walletConnectUri := none }
  fetchAccountsSnapshot requestRes session.topic st2

/-- The WalletConnect pairing flow of `connectQubic` from `client.connect`
onward (`acc` carries the client calls already made). -/
def wcConnectFlow (env : ConnectEnv) (now : Int) (st : DashState)
    (acc : List ClientCall) : DashState × List ClientCall :=
  let acc2 := acc ++ [ClientCall.connectCall]
  match env.wcConnect with
  | .error msg => (wcCatch env.usingFallback msg st, acc2)
  | .ok res =>
    let st2 :=
      match res.uri with
      | some u =>
        if u = "" then st
        else { st with
                 walletConnectUri := some u,
                 qubicMessage := some "Scan the QR code in Qubic Wallet to approve." }
      | none => st
    match res.approval with
    | .error msg => (wcCatch env.usingFallback msg st2, acc2)
    | .ok session =>
      let r := wcApprovalContinuation now env.requestAccounts session st2
      (r.1, acc2 ++ r.2)

/-- `connectQubic`.  The native-provider branch takes precedence; the
WalletConnect branch disconnects a previous remote session (one with a
truthy topic) before `client.connect`. -/
def connectQubic (env : ConnectEnv) (now : Int) (st : DashState) : DashState × List ClientCall :=
  match env.native with
  | some res =>
    let st1 := { st with
                   qubicStatus := ConnectionState.connecting,
                   qubicMessage := some "Requesting approval from installed Qubic Wallet…" }
    (match res with
     | .error msg => ({ st1 with qubicStatus := ConnectionState.error, qubicMessage := some msg }, [])
     | .ok response =>
       let accountCandidate : NativeItem :=
         match response with
         | .arr items => items.head?.getD .undef
         | .single item => item
       let structuredAccount : Option NativeObj :=
         match accountCandidate with
         | .obj o => some o
         | _ => none
       let address : Option String :=
         match accountCandidate with
         | .str a => some a
         | .obj o => o.address
         | .undef => none
       match address with
       | some a =>
         if a = "" then
           ({ st1 with
               qubicStatus := ConnectionState.error,
               qubicMessage := some "Unable to read account from native Qubic Wallet." }, [])
         else
           ({ st1 with
              qubicSession := some
                { topic := "qubic-native-wallet"
                  transport := Transport.native
                  address := a
                  chainId := "qubic:mainnet"
                  walletName := some "Qubic Wallet"
                  walletUrl := some "https://wallet.qubic.org/"
                  accounts := structuredAccount.map (fun o =>
                    [{ address := a, name := some (o.name.getD "Primary"),
                       amount := o.amount }]) }
              qubicStatus := ConnectionState.connected
              qubicMessage := some ("Linked " ++ shorten (some a) ++ " via native provider.") }, [])
       | none =>
         ({ st1 with
             qubicStatus := ConnectionState.error,
             qubicMessage := some "Unable to read account from native Qubic Wallet." }, []))
  | none =>
    if env.projectId = "" then
      ({ st with
          qubicStatus := ConnectionState.error,
          qubicMessage := some "WalletConnect project ID missing. Set NEXT_PUBLIC_WALLETCONNECT_PROJECT_ID." }, [])
    else
      let st1 := { st with
                     qubicStatus := ConnectionState.connecting,
                     qubicMessage := some "Generating WalletConnect URI…" }
      match env.clientInit with
      | .error msg => (wcCatch env.usingFallback msg st1, [])
      | .ok _ =>
        match st.qubicSession with
        | some sess =>
          if sess.topic ≠ "" ∧ sess.transport = Transport.walletconnect then
            match env.disconnectOld with
            | .error msg =>
              (wcCatch env.usingFallback msg st1, [ClientCall.disconnectCall sess.topic])
            | .ok _ => wcConnectFlow env now st1 [ClientCall.disconnectCall sess.topic]
          else wcConnectFlow env now st1 []
        | none => wcConnectFlow env now st1 []

/-- `cancelPairing`: drop the in-flight URI and revert the status; the
session record itself is not touched. -/
def cancelPairing (st : DashState) : DashState :=
  { st with walletConnectUri := none
            qubicStatus := if st.qubicSession.isSome then ConnectionState.connected
                           else ConnectionState.idle
            qubicMessage := some "Pairing request cancelled." }

/-- `handleSessionDelete`: only a `session_delete` for the active
walletconnect topic clears the session. -/
def handleSessionDelete (topic : String) (st : DashState) : DashState :=
  match st.qubicSession with
  | some s =>
    if s.topic = topic ∧ s.transport = Transport.walletconnect then
      { st with
          qubicSession := none,
          qubicStatus := ConnectionState.idle,
          qubicMessage := some "Session closed by Qubic Wallet." }
    else st
  | none => st

/-- `String.prototype.replace` with a plain (nonempty) pattern: first
occurrence only. -/
def replaceFirst (pat repl : List Char) : List Char → List Char
  | [] => []
  | c :: rest =>
    if pat.isPrefixOf (c :: rest) then repl ++ (c :: rest).drop pat.length
    else c :: replaceFirst pat repl rest

def jsReplaceFirst (s pat repl : String) : String :=
  String.mk (replaceFirst pat.toList repl.toList s.toList)

/-- The payload of a `session_event`: `data` is `some` exactly when the
event data is an array (of account objects). -/
structure SessionEventArgs where
  topic : String
  chainId : String
  name : String
  data : Option (List QubicAccount) := none
deriving DecidableEq, Repr

/-- `handleSessionEvent`: filtered by `chainId` and event name only — the
event topic is not consulted; an array payload replaces the session
accounts array. -/
def handleSessionEvent (e : SessionEventArgs) (st : DashState) : DashState :=
  if e.chainId ≠ "qubic:mainnet" then st
  else if e.name = "accountsChanged" ∨ e.name = "amountChanged" ∨
      e.name = "assetAmountChanged" then
    let st2 :=
      match e.data with
      | some accounts =>
        { st with qubicSession := st.qubicSession.map (fun (p : QubicSession) => { p with accounts := some accounts }) }
      | none => st
    { st2 with qubicMessage := some ("Wallet reported " ++
        jsReplaceFirst e.name "Changed" " update" ++ ".") }
  else st

/-- `handleSessionUpdate`: look the event topic up in the client session
store and re-hydrate from whatever it returns. -/
def handleSessionUpdate (store : String → Option WCSessionStruct) (now : Int)
    (topic : String) (st : DashState) : DashState :=
  match store topic with
  | some session => hydrateQubicSession now session st
  | none => st

/-! Lemmas and claims about the session machine. -/

theorem fetchAccountsSnapshot_calls (res : Except String (List QubicAccount))
    (topic : String) (st : DashState) :
    (fetchAccountsSnapshot res topic st).2 =
      [ClientCall.requestCall topic "qubic_requestAccounts"] := by
  cases res with
  | error msg => rfl
  | ok response => cases response <;> rfl

/-- The client calls `wcConnectFlow` makes after `client.connect`. -/
def wcConnectFlowTail (env : ConnectEnv) : List ClientCall :=
  match env.wcConnect with
  | .error _ => []
  | .ok res =>
    match res.approval with
    | .error _ => []
    | .ok session => [ClientCall.requestCall session.topic "qubic_requestAccounts"]

theorem wcConnectFlow_calls (env : ConnectEnv) (now : Int) (st : DashState)
    (acc : List ClientCall) :
    (wcConnectFlow env now st acc).2 =
      acc ++ ClientCall.connectCall :: wcConnectFlowTail env := by
  rw [wcConnectFlow, wcConnectFlowTail]
  cases env.wcConnect with
  | error msg => rfl
  | ok res =>
    cases hap : res.approval with
    | error msg =>
      simp only [hap]
    | ok session =>
      simp only [hap]
      rw [wcApprovalContinuation, fetchAccountsSnapshot_calls, List.append_assoc]
      rfl

/-- C1 (amended): at most one session value exists by construction (the
dashboard holds a single `Option QubicSession`); when connect takes the
WalletConnect branch while a remote session with a truthy topic is active,
the first protocol-client call is a disconnect of that session, issued
before the new `client.connect`; the native-provider branch, however,
replaces the session without making any protocol-client call (see the
counterexample). -/
theorem claim_C1 :
    (∀ (env : ConnectEnv) (now : Int) (st : DashState) (s : QubicSession),
      env.native = none → env.projectId ≠ "" → env.clientInit = .ok () →
      st.qubicSession = some s → s.transport = Transport.walletconnect →
      s.topic ≠ "" →
      ∃ rest, (connectQubic env now st).2 =
        ClientCall.disconnectCall s.topic :: rest) ∧
    (∀ (env : ConnectEnv) (now : Int) (st : DashState) (res : Except String NativeResp),
      env.native = some res → (connectQubic env now st).2 = []) := by
  constructor
  · intro env now st s hn hp hc hs htr hto
    rw [connectQubic, hn]
    simp only [if_neg hp, hc, hs]
    rw [if_pos ⟨hto, htr⟩]
    cases hd : env.disconnectOld with
    | error msg => exact ⟨[], rfl⟩
    | ok u =>
      have htail :=
        wcConnectFlow_calls env now
          { st with
              qubicStatus := ConnectionState.connecting,
              qubicMessage := some "Generating WalletConnect URI…" }
          [ClientCall.disconnectCall s.topic]
      rw [hs] at htail
      exact ⟨ClientCall.connectCall :: wcConnectFlowTail env, htail⟩
  · intro env now st res hn
    rw [connectQubic, hn]
    rcases res with msg | resp
    · rfl
    · simp only []
      split
      all_goals first
        | rfl
        | (split_ifs <;> rfl)

def sessOld : QubicSession :=
  { topic := "t1", address := "OLDADDR", chainId := "qubic:mainnet",
    transport := Transport.walletconnect }

def stC1 : DashState :=
  { qubicStatus := ConnectionState.connected, qubicSession := some sessOld }

def envC1native : ConnectEnv :=
  { native := some (.ok (.single (.str "NATIVEADDR")))
    projectId := "pid"
    usingFallback := false
    clientInit := .ok ()
    disconnectOld := .ok ()
    wcConnect := .error "unused"
    requestAccounts := .error "unused" }

/-- C1 counterexample: connect taken while a walletconnect session (topic
`t1`) is active, with a native provider present: no protocol-client call is
made at all — in particular no disconnect of `t1` — yet the session is
replaced by a native-transport one. -/
theorem claim_C1_counterexample :
    (connectQubic envC1native 0 stC1).2 = [] ∧
    ((connectQubic envC1native 0 stC1).1.qubicSession.map
      (fun q => q.transport)) = some Transport.native := by
  constructor <;> rfl

def envC1wc : ConnectEnv :=
  { native := none
    projectId := "pid"
    usingFallback := false
    clientInit := .ok ()
    disconnectOld := .ok ()
    wcConnect := .error "socket error"
    requestAccounts := .error "unused" }

/-- Witness for the amended C1 at concrete inputs. -/
theorem claim_C1_witness :
    (∃ rest, (connectQubic envC1wc 0 stC1).2 =
      ClientCall.disconnectCall sessOld.topic :: rest) ∧
    (connectQubic envC1native 0 stC1).2 = [] :=
  ⟨claim_C1.1 envC1wc 0 stC1 sessOld rfl (by decide) rfl rfl rfl (by decide),
   claim_C1.2 envC1native 0 stC1 _ rfl⟩

/-- C2 (amended): a `session_event` for a foreign chain leaves the state
unchanged, and a matching `session_event` (`accountsChanged` /
`amountChanged` / `assetAmountChanged` on `qubic:mainnet` with an array
payload) replaces exactly the session accounts array — regardless of the
event topic, which the handler does not consult (see the counterexample);
`session_delete` is topic-filtered; `session_update` re-hydrates from the
store entry for the event topic whether or not it matches the active
session. -/
theorem claim_C2 :
    (∀ (e : SessionEventArgs) (st : DashState),
      e.chainId ≠ "qubic:mainnet" → handleSessionEvent e st = st) ∧
    (∀ (e : SessionEventArgs) (st : DashState) (accounts : List QubicAccount),
      e.chainId = "qubic:mainnet" →
      (e.name = "accountsChanged" ∨ e.name = "amountChanged" ∨
        e.name = "assetAmountChanged") →
      e.data = some accounts →
      (handleSessionEvent e st).qubicSession =
        st.qubicSession.map (fun (p : QubicSession) => { p with accounts := some accounts })) ∧
    (∀ (topic : String) (st : DashState) (s : QubicSession),
      st.qubicSession = some s → s.topic ≠ topic →
      handleSessionDelete topic st = st) ∧
    (∀ (store : String → Option WCSessionStruct) (now : Int) (topic : String)
        (st : DashState) (session : WCSessionStruct),
      store topic = some session →
      handleSessionUpdate store now topic st = hydrateQubicSession now session st) := by
  refine ⟨?_, ?_, ?_, ?_⟩
  · intro e st h
    rw [handleSessionEvent, if_pos h]
  · intro e st accounts hc hn hd
    rw [handleSessionEvent, if_neg (fun hne => hne hc), if_pos hn, hd]
  · intro topic st s hs hne
    rw [handleSessionDelete, hs]
    simp only []
    rw [if_neg (fun hcon => hne hcon.1)]
  · intro store now topic st session hst
    rw [handleSessionUpdate, hst]

def acctA : QubicAccount := { address := "AAAA" }
def acctB : QubicAccount := { address := "BBBB" }

def sessT1 : QubicSession :=
  { topic := "t1", address := "AAAA", chainId := "qubic:mainnet",
    transport := Transport.walletconnect, accounts := some [acctA] }

def stC2 : DashState :=
  { qubicStatus := ConnectionState.connected, qubicSession := some sessT1 }

def evtC2 : SessionEventArgs :=
  { topic := "t2", chainId := "qubic:mainnet", name := "accountsChanged",
    data := some [acctB] }

/-- C2 counterexample: a `session_event` whose topic (`t2`) differs from
the active session topic (`t1`) nevertheless changes the active session
record — the handler never compares topics. -/
theorem claim_C2_counterexample :
    (handleSessionEvent evtC2 stC2).qubicSession ≠ stC2.qubicSession := by
  decide

def wcSessT9 : WCSessionStruct :=
  { topic := "t9", qubicAccounts := some ["qubic:mainnet:CCCC"],
    expiry := some 1000, peerName := some "Wallet" }

def storeC2 : String → Option WCSessionStruct :=
  fun t => if t = "t9" then some wcSessT9 else none

def evtForeignChain : SessionEventArgs :=
  { topic := "t1", chainId := "eip155:1", name := "accountsChanged",
    data := some [acctB] }

/-- Witness for the amended C2 at concrete inputs. -/
theorem claim_C2_witness :
    handleSessionEvent evtForeignChain stC2 = stC2 ∧
    (handleSessionEvent evtC2 stC2).qubicSession =
      stC2.qubicSession.map (fun (p : QubicSession) => { p with accounts := some [acctB] }) ∧
    handleSessionDelete "t2" stC2 = stC2 ∧
    handleSessionUpdate storeC2 0 "t9" stC2 = hydrateQubicSession 0 wcSessT9 stC2 :=
  ⟨claim_C2.1 _ stC2 (by decide),
   claim_C2.2.1 evtC2 stC2 [acctB] rfl (Or.inl rfl) rfl,
   claim_C2.2.2.1 "t2" stC2 sessT1 rfl (by decide),
   claim_C2.2.2.2 storeC2 0 "t9" stC2 wcSessT9 rfl⟩

/-- C4 (amended): cancel pairing clears only the in-flight URI (plus an
informational message), returns the status to connected exactly when a
session record exists and to idle otherwise, and leaves the session record
untouched; but a remote approval that resolves after cancellation is NOT
ignored: the resolution continuation still hydrates the session record
from the approved session (see the counterexample). -/
theorem claim_C4 :
    (∀ st : DashState,
      (cancelPairing st).walletConnectUri = none ∧
      (cancelPairing st).qubicSession = st.qubicSession ∧
      (cancelPairing st).qubicStatus =
        (if st.qubicSession.isSome then ConnectionState.connected
         else ConnectionState.idle)) ∧
    (∀ (now : Int) (req : Except String (List QubicAccount))
        (session : WCSessionStruct) (st : DashState)
        (ns chainId addr : String) (accountsList : List String),
      session.qubicAccounts = some accountsList →
      parseQubicAccountString accountsList.head? = some (ns, chainId, addr) →
      ∃ q, (wcApprovalContinuation now req session (cancelPairing st)).1.qubicSession
          = some q ∧
        q.topic = session.topic ∧ q.address = addr ∧
        q.transport = Transport.walletconnect) := by
  constructor
  · intro st
    exact ⟨rfl, rfl, rfl⟩
  · intro now req session st ns chainId addr accountsList hacc hparse
    rw [wcApprovalContinuation]
    simp only [hydrateQubicSession, hacc, hparse]
    cases req with
    | error msg => exact ⟨_, rfl, rfl, rfl, rfl⟩
    | ok response =>
      cases response with
      | nil => exact ⟨_, rfl, rfl, rfl, rfl⟩
      | cons a rest => exact ⟨_, rfl, rfl, rfl, rfl⟩

def stC4 : DashState :=
  { qubicStatus := ConnectionState.connecting, qubicSession := none,
    walletConnectUri := some "wc:pairing-uri" }

/-- C4 counterexample: after cancellation (which left no session), a late
approval resolution changes the session state — it is not ignored. -/
theorem claim_C4_counterexample :
    (wcApprovalContinuation 0 (Except.error "request failed") wcSessT9
        (cancelPairing stC4)).1.qubicSession ≠ (cancelPairing stC4).qubicSession := by
  decide

/-- Witness for the amended C4 at concrete inputs. -/
theorem claim_C4_witness :
    ((cancelPairing stC4).walletConnectUri = none ∧
      (cancelPairing stC4).qubicSession = stC4.qubicSession ∧
      (cancelPairing stC4).qubicStatus =
        (if stC4.qubicSession.isSome then ConnectionState.connected
         else ConnectionState.idle)) ∧
    (∃ q, (wcApprovalContinuation 0 (Except.error "request failed") wcSessT9
        (cancelPairing stC4)).1.qubicSession = some q ∧
      q.topic = wcSessT9.topic ∧ q.address = "CCCC" ∧
      q.transport = Transport.walletconnect) :=
  ⟨claim_C4.1 stC4,
   claim_C4.2 0 (Except.error "request failed") wcSessT9 stC4
    "qubic" "mainnet" "CCCC" ["qubic:mainnet:CCCC"] rfl (by decide)⟩

/-! ## Vault importer (`handleFileSelection`, plaintext parsing, unlock) -/

def lookupField (fields : List (String × Json)) (key : String) : Option Json :=
  (fields.find? (fun f => f.1 = key)).map (fun f => f.2)

/-- Read a string-valued property of a JSON object (the cast
`item as VaultFileAccount` reads only the declared `string | undefined`
fields; non-string values behave as absent). -/
def Json.getStr (j : Json) (key : String) : Option String :=
  match j with
  | .obj fields =>
    match lookupField fields key with
    | some (.str v) => some v
    | _ => none
  | _ => none

/-- `looksEncryptedVault` applied to a `safeJsonParse` result: a parsed
object containing the `cipher`, `iv` and `salt` keys. -/
def looksEncryptedVault (value : Option Json) : Bool :=
  match value with
  | some (.obj fields) =>
    (fields.any (fun f => f.1 = "cipher")) &&
    (fields.any (fun f => f.1 = "iv")) &&
    (fields.any (fun f => f.1 = "salt"))
  | _ => false

def isEncryptedVaultText (env : Env) (text : String) : Bool :=
  looksEncryptedVault (env.parse text)

/-- `isZipArchive`: at least four bytes and the `PK` local-file signature
in the first two. -/
def isZipArchive (buffer : List Nat) : Bool :=
  match buffer with
  | b0 :: b1 :: _ :: _ :: _ => b0 = 0x50 && b1 = 0x4b
  | _ => false

/-- `extractVaultText`: non-archives decode as UTF-8 text; archives go
through the external JSZip extraction (`env.unzip`), which models picking
the first `.json` (else first non-directory) entry and throws when the
archive has no readable entries. -/
def extractVaultText (env : Env) (buffer : List Nat) : Except String String :=
  if isZipArchive buffer then env.unzip buffer
  else .ok (env.decode buffer)

structure VaultFileAccount where
  name : Option String := none
  «alias» : Option String := none
  seed : Option String := none
  privateKey : Option String := none
  publicKey : Option String := none
  publicId : Option String := none
deriving DecidableEq, Repr

inductive VaultSource where
  | seed | privateKey | publicKey | unknown
deriving DecidableEq, Repr

structure VaultAccount where
  name : Option String := none
  source : VaultSource
  publicId : String
  balance : Option String := none
deriving DecidableEq, Repr

/-- The `consume` helper of `collectVaultEntries` admits every object item
of an array (a nested array is itself an object with none of the string
fields). -/
def entryOfJson (j : Json) : Option VaultFileAccount :=
  match j with
  | .obj _ => some
      { name := j.getStr "name"
        «alias» := j.getStr "alias"
        seed := j.getStr "seed"
        privateKey := j.getStr "privateKey"
        publicKey := j.getStr "publicKey"
        publicId := j.getStr "publicId" }
  | .arr _ => some {}
  | _ => none

def consumeEntries (candidate : Json) : List VaultFileAccount :=
  match candidate with
  | .arr items => items.filterMap entryOfJson
  | _ => []

def Json.isArr : Json → Bool
  | .arr _ => true
  | _ => false

/-- `collectVaultEntries`: arrays are consumed directly; objects are
scanned at the five known keys first, then (only when that yields nothing)
at every array-valued property. -/
def collectVaultEntries (value : Json) : List VaultFileAccount :=
  match value with
  | .arr _ => consumeEntries value
  | .obj fields =>
    let keyed := ["accounts", "wallets", "seeds", "entries", "data"].foldl
      (fun acc key =>
        match lookupField fields key with
        | some v => if v.isArr then acc ++ consumeEntries v else acc
        | none => acc) []
    if keyed = [] then
      fields.foldl (fun acc f => if f.2.isArr then acc ++ consumeEntries f.2 else acc) []
    else keyed
  | _ => []

/-- `buildWatchOnlyAccount` (never throws: the snapshot fetch is total). -/
def buildWatchOnlyAccount (env : Env) (publicId : String) (name : Option String) : VaultAccount :=
  let snapshot := env.snapshot publicId
  { name := some (name.getD "Watch-only account")
    source := VaultSource.publicKey
    publicId := publicId
    balance := snapshot.balance.map (fun b => b.balance) }

/-- `deriveVaultAccount`: probe `seed`, then `privateKey`, then
`publicId`/`publicKey`, falling through when a field is absent, empty
(falsy) or fails its pattern; return `none` when nothing matches. -/
def deriveVaultAccount (env : Env) (entry : VaultFileAccount) :
    Except String (Option VaultAccount) :=
  let label := entry.name <|> entry.«alias»
  let trySeed : Option (Except String (Option VaultAccount)) :=
    match entry.seed with
    | some s =>
      if s = "" then none
      else
        let normalizedSeed := normalizeSeedInput s
        if isQubicSeed normalizedSeed then
          some (match env.fromSeed normalizedSeed with
            | .error e => .error e
            | .ok details =>
              let snapshot := env.snapshot details.publicId
              .ok (some { name := label, source := VaultSource.seed,
                          publicId := details.publicId,
                          balance := snapshot.balance.map (fun b => b.balance) }))
        else none
    | none => none
  match trySeed with
  | some r => r
  | none =>
    let tryKey : Option (Except String (Option VaultAccount)) :=
      match entry.privateKey with
      | some k =>
        if k = "" then none
        else
          let normalizedKey := normalizePrivateKeyInput k
          if isHexPrivateKey normalizedKey then
            some (match env.fromKey normalizedKey with
              | .error e => .error e
              | .ok details =>
                let snapshot := env.snapshot details.publicId
                .ok (some { name := label, source := VaultSource.privateKey,
                            publicId := details.publicId,
                            balance := snapshot.balance.map (fun b => b.balance) }))
          else none
      | none => none
    match tryKey with
    | some r => r
    | none =>
      match entry.publicId <|> entry.publicKey with
      | some identityCandidate =>
        if identityCandidate ≠ "" ∧ isQubicIdentity identityCandidate then
          .ok (some (buildWatchOnlyAccount env identityCandidate label))
        else .ok none
      | none => .ok none

/-- One entry of the `Promise.all` in `deriveVaultAccounts`: a thrown
derivation becomes `null` (dropped with a logged warning). -/
def deriveOutcome (env : Env) (entry : VaultFileAccount) : Option VaultAccount :=
  match deriveVaultAccount env entry with
  | .error _ => none
  | .ok v => v

/-- `deriveVaultAccounts`: derive every entry, drop the failures, and fail
only when nothing survives. -/
def deriveVaultAccounts (env : Env) (entries : List VaultFileAccount) :
    Except String (List VaultAccount) :=
  let accounts := entries.filterMap (deriveOutcome env)
  if accounts = [] then
    .error "No compatible seeds, private keys, or identities were found in this vault file."
  else .ok accounts

def parsePlainVaultFile (env : Env) (text : String) : Except String (List VaultAccount) :=
  match env.parse text with
  | none => .error "Vault file is not valid JSON."
  | some parsed =>
    let entries := collectVaultEntries parsed
    if entries = [] then .error "This vault file does not contain any account entries."
    else deriveVaultAccounts env entries

structure VaultSummary where
  accounts : Option Nat := none
  lastUpdated : Option String := none
deriving DecidableEq, Repr

def parseVaultSummary (env : Env) (raw : String) : Option VaultSummary :=
  match env.parse raw with
  | none => none
  | some parsed =>
    let accountsCount :=
      match parsed with
      | .obj fields =>
        match lookupField fields "accounts" with
        | some (.arr items) => some items.length
        | _ => none
      | _ => none
    some { accounts := accountsCount,
           lastUpdated := parsed.getStr "updatedAt" <|> parsed.getStr "lastUpdated" }

inductive VaultState where
  | idle (message : Option String)
  | processing (message : String)
  | ready (message : String) (fileName : String) (size : Nat) (checksum : String)
      (summary : Option VaultSummary) (accounts : Option (List VaultAccount))
  | error (message : String)
deriving DecidableEq, Repr

/-- The staged `VaultUpload` (the staged `File`/`buffer` both hold the
normalized text bytes; the checksum is the 32-hex-character prefix). -/
structure VaultUpload where
  name : String
  size : Nat
  checksum : String
  buffer : List Nat
deriving DecidableEq, Repr

/-- The observable outcome of `handleFileSelection`: the final vault
state, the staged upload, and whether `parsePlainVaultFile` was invoked. -/
structure FileSelResult where
  vaultState : VaultState
  vaultUpload : Option VaultUpload
  attemptedPlainParse : Bool
deriving DecidableEq, Repr

/-- `handleFileSelection`: checksum the ORIGINAL bytes, extract the text,
stage the upload, route encrypted containers to the password prompt, and
otherwise attempt plaintext derivation. -/
def handleFileSelection (env : Env) (fileName : String) (fileSize : Nat)
    (bytes : List Nat) : FileSelResult :=
  let checksumFull := env.digest bytes
  match extractVaultText env bytes with
  | .error msg =>
    { vaultState := .error msg, vaultUpload := none, attemptedPlainParse := false }
  | .ok text =>
    let checksum := strTake checksumFull 32
    let upload : VaultUpload :=
      { name := fileName, size := fileSize, checksum := checksum,
        buffer := env.encode text }
    if isEncryptedVaultText env text then
      { vaultState := .idle (some "Encrypted vault detected. Enter password to unlock."),
        vaultUpload := some upload, attemptedPlainParse := false }
    else
      match parsePlainVaultFile env text with
      | .error msg =>
        { vaultState := .error msg, vaultUpload := none, attemptedPlainParse := true }
      | .ok accounts =>
        let summary := (parseVaultSummary env text).getD
          { accounts := some accounts.length, lastUpdated := none }
        { vaultState := .ready "Vault ready to unlock." fileName fileSize checksum
            (some summary) (some accounts),
          vaultUpload := none, attemptedPlainParse := true }

/-- A secret enumerated by the vault container service. -/
structure VaultSecret where
  «alias» : Option String := none
  publicId : String
  isOnlyWatch : Bool := false
deriving DecidableEq, Repr

/-- The vault container service (`QubicVault`): unlock outcome, the
enumerated secrets, and seed reveal per public id. -/
structure VaultServiceEnv where
  importAndUnlock : Except String Unit
  getSeeds : List VaultSecret
  revealSeed : String → Except String String

/-- One entry of the `Promise.all` in `unlockEncryptedVault`: reveal,
derive and snapshot a spendable secret; any throw yields `null`. -/
def unlockSeedOutcome (env : Env) (vs : VaultServiceEnv) (secret : VaultSecret) :
    Option VaultAccount :=
  match vs.revealSeed secret.publicId with
  | .error _ => none
  | .ok revealedSeed =>
    match env.fromSeed revealedSeed with
    | .error _ => none
    | .ok details =>
      let snapshot := env.snapshot details.publicId
      some { name := some (secret.«alias».getD secret.publicId)
             source := VaultSource.seed
             publicId := details.publicId
             balance := snapshot.balance.map (fun b => b.balance) }

/-- `unlockEncryptedVault`. -/
def unlockEncryptedVault (env : Env) (vs : VaultServiceEnv) (password : String) :
    Except String (List VaultAccount) :=
  if strTrim password = "" then
    .error "Enter the password used to create this vault."
  else
    match vs.importAndUnlock with
    | .error e => .error e
    | .ok _ =>
      let seeds := vs.getSeeds.filter (fun s => !s.isOnlyWatch)
      if seeds = [] then
        .error "Vault unlocked but contains no spendable seeds."
      else
        let usable := seeds.filterMap (unlockSeedOutcome env vs)
        if usable = [] then
          .error "Unable to derive any accounts from this vault."
        else .ok usable

/-! Claims about the vault pipeline. -/

/-- C3 (amended): the checksum stored in the staged upload and in the
ready state is the first 32 hex characters of the digest of the ORIGINAL
uploaded bytes — not of the normalized post-extraction text — so it is
deterministic in the raw bytes (identical bytes give identical checksums),
but a zip-wrapped JSON file and the equivalent raw JSON file in general
yield different checksums (see the counterexample). -/
theorem claim_C3 :
    (∀ (env : Env) (fileName : String) (fileSize : Nat) (bytes : List Nat)
        (u : VaultUpload),
      (handleFileSelection env fileName fileSize bytes).vaultUpload = some u →
      u.checksum = strTake (env.digest bytes) 32) ∧
    (∀ (env : Env) (fileName : String) (fileSize : Nat) (bytes : List Nat)
        (m fn : String) (sz : Nat) (ck : String) (su : Option VaultSummary)
        (ac : Option (List VaultAccount)),
      (handleFileSelection env fileName fileSize bytes).vaultState =
        VaultState.ready m fn sz ck su ac →
      ck = strTake (env.digest bytes) 32) ∧
    (∀ (env : Env) (n1 : String) (s1 : Nat) (n2 : String) (s2 : Nat)
        (bytes : List Nat) (u1 u2 : VaultUpload),
      (handleFileSelection env n1 s1 bytes).vaultUpload = some u1 →
      (handleFileSelection env n2 s2 bytes).vaultUpload = some u2 →
      u1.checksum = u2.checksum) := by
  have key : ∀ (env : Env) (fileName : String) (fileSize : Nat) (bytes : List Nat)
      (u : VaultUpload),
      (handleFileSelection env fileName fileSize bytes).vaultUpload = some u →
      u.checksum = strTake (env.digest bytes) 32 := by
    intro env fileName fileSize bytes u h
    rw [handleFileSelection] at h
    cases hevt : extractVaultText env bytes with
    | error msg =>
      rw [hevt] at h
      exact absurd h (by simp)
    | ok text =>
      rw [hevt] at h
      by_cases henc : isEncryptedVaultText env text
      · simp only [henc, if_true] at h
        obtain rfl := Option.some.inj h
        rfl
      · simp only [henc, Bool.false_eq_true, if_false] at h
        cases hp : parsePlainVaultFile env text <;> rw [hp] at h <;>
          exact absurd h (by simp)
  refine ⟨key, ?_, ?_⟩
  · intro env fileName fileSize bytes m fn sz ck su ac h
    rw [handleFileSelection] at h
    cases hevt : extractVaultText env bytes with
    | error msg =>
      rw [hevt] at h
      exact absurd h (by simp)
    | ok text =>
      rw [hevt] at h
      by_cases henc : isEncryptedVaultText env text
      · simp only [henc, if_true] at h
        exact absurd h (by simp)
      · simp only [henc, Bool.false_eq_true, if_false] at h
        cases hp : parsePlainVaultFile env text with
        | error msg =>
          rw [hp] at h
          exact absurd h (by simp)
        | ok accounts =>
          rw [hp] at h
          simp only [VaultState.ready.injEq] at h
          exact h.2.2.2.1.symm
  · intro env n1 s1 n2 s2 bytes u1 u2 h1 h2
    rw [key env n1 s1 bytes u1 h1, key env n2 s2 bytes u2 h2]

def textC3 : String := "cipher-iv-salt-object"

def jsonC3 : Json :=
  Json.obj [("cipher", Json.str "c"), ("iv", Json.str "i"), ("salt", Json.str "s")]

/-- A concrete environment: the digest is a hex dump (deterministic and
injective, standing in for SHA-256), the archive extraction yields the
same text the raw file decodes to. -/
def envC3 : Env :=
  { digest := fun bs => String.mk (bytesToHex bs)
    encode := fun t => t.toList.map Char.toNat
    decode := fun bs => String.mk (bs.map Char.ofNat)
    unzip := fun _ => .ok textC3
    parse := fun t => if t = textC3 then some jsonC3 else none
    fromSeed := fun _ => .error "unused"
    fromKey := fun _ => .error "unused"
    snapshot := fun _ => {} }

def zipBytesC3 : List Nat := [0x50, 0x4b, 0x03, 0x04]

def rawBytesC3 : List Nat := textC3.toList.map Char.toNat

/-- C3 counterexample: a zip upload and a raw upload that extract to the
same text are both staged, but their checksums differ, and the zip
checksum is not the digest of the normalized text. -/
theorem claim_C3_counterexample :
    extractVaultText envC3 zipBytesC3 = extractVaultText envC3 rawBytesC3 ∧
    ((handleFileSelection envC3 "vault.zip" 4 zipBytesC3).vaultUpload.map
        (fun u => u.checksum)) = some (strTake (envC3.digest zipBytesC3) 32) ∧
    ((handleFileSelection envC3 "vault.json" 21 rawBytesC3).vaultUpload.map
        (fun u => u.checksum)) = some (strTake (envC3.digest rawBytesC3) 32) ∧
    strTake (envC3.digest zipBytesC3) 32 ≠ strTake (envC3.digest rawBytesC3) 32 ∧
    strTake (envC3.digest zipBytesC3) 32 ≠
      strTake (envC3.digest (envC3.encode textC3)) 32 := by
  refine ⟨rfl, rfl, rfl, ?_, ?_⟩ <;> decide

def uploadZipC3 : VaultUpload :=
  { name := "vault.zip", size := 4, checksum := strTake (envC3.digest zipBytesC3) 32,
    buffer := envC3.encode textC3 }

def uploadOtherC3 : VaultUpload :=
  { name := "other-name.zip", size := 9, checksum := strTake (envC3.digest zipBytesC3) 32,
    buffer := envC3.encode textC3 }

/-- Witness for the amended C3 at concrete inputs. -/
theorem claim_C3_witness :
    uploadZipC3.checksum = strTake (envC3.digest zipBytesC3) 32 ∧
    uploadZipC3.checksum = uploadOtherC3.checksum :=
  ⟨claim_C3.1 envC3 "vault.zip" 4 zipBytesC3 uploadZipC3 rfl,
   claim_C3.2.2 envC3 "vault.zip" 4 "other-name.zip" 9 zipBytesC3
     uploadZipC3 uploadOtherC3 rfl rfl⟩

/-- C5: a file whose extracted text parses as a JSON object holding
`cipher`, `iv` and `salt` is always staged and routed to the
password-prompt configuration (idle state with the password message and a
staged upload), and plaintext parsing/derivation is never attempted. -/
theorem claim_C5 :
    ∀ (env : Env) (fileName : String) (fileSize : Nat) (bytes : List Nat)
      (text : String) (j : Json),
      extractVaultText env bytes = .ok text →
      env.parse text = some j →
      looksEncryptedVault (some j) = true →
      handleFileSelection env fileName fileSize bytes =
        { vaultState := VaultState.idle
            (some "Encrypted vault detected. Enter password to unlock.")
          vaultUpload := some
            { name := fileName, size := fileSize,
              checksum := strTake (env.digest bytes) 32, buffer := env.encode text }
          attemptedPlainParse := false } := by
  intro env fileName fileSize bytes text j hevt hparse henc
  rw [handleFileSelection, hevt]
  have : isEncryptedVaultText env text = true := by
    rw [isEncryptedVaultText, hparse]
    exact henc
  simp only [this, if_true]

/-- Witness for C5 at a concrete input. -/
theorem claim_C5_witness :
    handleFileSelection envC3 "vault.zip" 4 zipBytesC3 =
      { vaultState := VaultState.idle
          (some "Encrypted vault detected. Enter password to unlock.")
        vaultUpload := some
          { name := "vault.zip", size := 4,
            checksum := strTake (envC3.digest zipBytesC3) 32,
            buffer := envC3.encode textC3 }
        attemptedPlainParse := false } :=
  claim_C5 envC3 "vault.zip" 4 zipBytesC3 textC3 jsonC3 rfl rfl (by decide)

/-- C8: in plaintext derivation, an entry whose probe matches nothing or
whose derivation throws is simply dropped — removing it (or inserting it)
does not change the result — and the operation fails exactly when zero
accounts survive (succeeding with exactly the survivors otherwise); in
encrypted unlock, only secrets not flagged watch-only are enumerated (a
container with only watch-only secrets fails with the no-spendable-seeds
error), and when every reveal/derive attempt on the spendable secrets
fails, the operation fails with the empty-derivation error; when some
spendable secret derives, unlock returns exactly the surviving accounts. -/
theorem claim_C8 :
    (∀ (env : Env) (pre post : List VaultFileAccount) (e : VaultFileAccount),
      deriveOutcome env e = none →
      deriveVaultAccounts env (pre ++ e :: post) = deriveVaultAccounts env (pre ++ post)) ∧
    (∀ (env : Env) (entries : List VaultFileAccount),
      (entries.filterMap (deriveOutcome env) = [] →
        deriveVaultAccounts env entries =
          .error "No compatible seeds, private keys, or identities were found in this vault file.") ∧
      (entries.filterMap (deriveOutcome env) ≠ [] →
        deriveVaultAccounts env entries = .ok (entries.filterMap (deriveOutcome env)))) ∧
    (∀ (env : Env) (vs : VaultServiceEnv) (password : String),
      strTrim password ≠ "" → vs.importAndUnlock = .ok () →
      (∀ sec ∈ vs.getSeeds, sec.isOnlyWatch = true) →
      unlockEncryptedVault env vs password =
        .error "Vault unlocked but contains no spendable seeds.") ∧
    (∀ (env : Env) (vs : VaultServiceEnv) (password : String),
      strTrim password ≠ "" → vs.importAndUnlock = .ok () →
      vs.getSeeds.filter (fun sec => !sec.isOnlyWatch) ≠ [] →
      ((∀ sec ∈ vs.getSeeds.filter (fun sec => !sec.isOnlyWatch),
          unlockSeedOutcome env vs sec = none) →
        unlockEncryptedVault env vs password =
          .error "Unable to derive any accounts from this vault.") ∧
      ((vs.getSeeds.filter (fun sec => !sec.isOnlyWatch)).filterMap
          (unlockSeedOutcome env vs) ≠ [] →
        unlockEncryptedVault env vs password =
          .ok ((vs.getSeeds.filter (fun sec => !sec.isOnlyWatch)).filterMap
            (unlockSeedOutcome env vs)))) := by
  refine ⟨?_, ?_, ?_, ?_⟩
  · intro env pre post e he
    rw [deriveVaultAccounts, deriveVaultAccounts,
      List.filterMap_append, List.filterMap_append, List.filterMap_cons, he]
  · intro env entries
    constructor
    · intro h
      rw [deriveVaultAccounts, h, if_pos rfl]
    · intro h
      rw [deriveVaultAccounts, if_neg h]
  · intro env vs password hpw hun hall
    rw [unlockEncryptedVault, if_neg hpw, hun]
    have : vs.getSeeds.filter (fun sec => !sec.isOnlyWatch) = [] := by
      rw [List.filter_eq_nil_iff]
      intro sec hsec
      simp [hall sec hsec]
    simp only [this]
    simp
  · intro env vs password hpw hun hne
    rw [unlockEncryptedVault, if_neg hpw, hun]
    simp only [if_neg hne]
    constructor
    · intro hfail
      have : (vs.getSeeds.filter (fun sec => !sec.isOnlyWatch)).filterMap
          (unlockSeedOutcome env vs) = [] := by
        rw [List.filterMap_eq_nil_iff]
        exact hfail
      rw [this, if_pos rfl]
    · intro hsome
      rw [if_neg hsome]

def pubId60 : String := String.mk (List.replicate 60 'A')

/-- An entry with no recognizable field: dropped by derivation. -/
def entryEmpty : VaultFileAccount := {}

def entryWatch : VaultFileAccount := { publicId := some pubId60 }

def envC8 : Env :=
  { envNull with
      fromSeed := fun _ =>
        .ok { publicId := "PUB1", publicKeyHex := "aa", privateKeyHex := "bb" } }

def vsAllWatch : VaultServiceEnv :=
  { importAndUnlock := .ok ()
    getSeeds := [{ publicId := "W1", isOnlyWatch := true }]
    revealSeed := fun _ => .error "unused" }

def vsFailing : VaultServiceEnv :=
  { importAndUnlock := .ok ()
    getSeeds := [{ publicId := "S1" }]
    revealSeed := fun _ => .error "reveal failed" }

def vsGood : VaultServiceEnv :=
  { importAndUnlock := .ok ()
    getSeeds := [{ publicId := "S1" }, { publicId := "W1", isOnlyWatch := true }]
    revealSeed := fun _ => .ok "seedmaterial" }

/-- Witness for C8 at concrete inputs: an unclassifiable entry is dropped
without failing the batch; a watch-only-only container and an
all-derivations-fail container produce the two unlock errors; a container
with one good spendable seed unlocks to exactly that account. -/
theorem claim_C8_witness :
    deriveVaultAccounts envC8 ([entryWatch] ++ entryEmpty :: []) =
      deriveVaultAccounts envC8 ([entryWatch] ++ []) ∧
    deriveVaultAccounts envNull [entryEmpty] =
      .error "No compatible seeds, private keys, or identities were found in this vault file." ∧
    unlockEncryptedVault envNull vsAllWatch "pw" =
      .error "Vault unlocked but contains no spendable seeds." ∧
    unlockEncryptedVault envNull vsFailing "pw" =
      .error "Unable to derive any accounts from this vault." ∧
    unlockEncryptedVault envC8 vsGood "pw" =
      .ok ((vsGood.getSeeds.filter (fun sec => !sec.isOnlyWatch)).filterMap
        (unlockSeedOutcome envC8 vsGood)) :=
  ⟨claim_C8.1 envC8 [entryWatch] [] entryEmpty (by decide),
   (claim_C8.2.1 envNull [entryEmpty]).1 (by decide),
   claim_C8.2.2.1 envNull vsAllWatch "pw" (by decide) rfl (by decide),
   (claim_C8.2.2.2 envNull vsFailing "pw" (by decide) rfl (by decide)).1 (by decide),
   (claim_C8.2.2.2 envC8 vsGood "pw" (by decide) rfl (by decide)).2 (by decide)⟩

/-! ## `fetchIdentitySnapshot` (identity-snapshot cache, `qubicIdentity.ts`) -/

structure GetBalanceResult where
  balance : BalanceInfo
deriving DecidableEq, Repr

structure GetOwnedAssetsResult where
  ownedAssets : List OwnedAsset
deriving DecidableEq, Repr

/-- The identity RPC service consumed by `fetchIdentitySnapshot`. -/
structure RpcEnv where
  getBalanceByIdentity : String → Except String GetBalanceResult
  getOwnedAssets : String → Except String GetOwnedAssetsResult

/-- The module-level `identitySnapshotCache` map, as an association list
(insertion happens only on a miss, so prepending has `Map.set` lookup
semantics). -/
abbrev SnapshotCache := List (String × IdentitySnapshot)

def cacheLookup (cache : SnapshotCache) (publicId : String) : Option IdentitySnapshot :=
  (cache.find? (fun e => e.1 = publicId)).map (fun e => e.2)

/-- `.catch(() => undefined)` on an RPC promise. -/
def extOption {α : Type} : Except String α → Option α
  | .ok a => some a
  | .error _ => none

/-- `fetchIdentitySnapshot`: serve from the cache when possible, otherwise
query balance and owned assets (each failure degrading to an absent
field), cache the merged snapshot and return it, reporting whether the
network was queried. -/
def fetchIdentitySnapshot (rpc : RpcEnv) (cache : SnapshotCache) (publicId : String) :
    IdentitySnapshot × SnapshotCache × Bool :=
  match cacheLookup cache publicId with
  | some snap => (snap, cache, false)
  | none =>
    let balance := extOption (rpc.getBalanceByIdentity publicId)
    let ownedAssets := extOption (rpc.getOwnedAssets publicId)
    let snapshot : IdentitySnapshot :=
      { balance := balance.map (fun b => b.balance)
        ownedAssets := ownedAssets.map (fun a => a.ownedAssets) }
    (snapshot, (publicId, snapshot) :: cache, true)

/-- C9: a cache hit returns the cached snapshot with no network query and
no cache change; a miss queries both balance and owned-asset-count, maps
each failure to an absent field instead of an error (the call itself is a
total function — it never fails), caches the merged snapshot under the
public id; and the cache is never invalidated: every entry present before
a fetch is still present, unchanged, afterwards. -/
theorem claim_C9 :
    (∀ (rpc : RpcEnv) (cache : SnapshotCache) (publicId : String)
        (snap : IdentitySnapshot),
      cacheLookup cache publicId = some snap →
      fetchIdentitySnapshot rpc cache publicId = (snap, cache, false)) ∧
    (∀ (rpc : RpcEnv) (cache : SnapshotCache) (publicId : String),
      cacheLookup cache publicId = none →
      ∃ snap,
        fetchIdentitySnapshot rpc cache publicId = (snap, (publicId, snap) :: cache, true) ∧
        snap.balance = (extOption (rpc.getBalanceByIdentity publicId)).map
          (fun b => b.balance) ∧
        snap.ownedAssets = (extOption (rpc.getOwnedAssets publicId)).map
          (fun a => a.ownedAssets) ∧
        cacheLookup ((publicId, snap) :: cache) publicId = some snap) ∧
    (∀ (rpc : RpcEnv) (cache : SnapshotCache) (publicId publicId2 : String)
        (s : IdentitySnapshot),
      cacheLookup cache publicId2 = some s →
      cacheLookup (fetchIdentitySnapshot rpc cache publicId).2.1 publicId2 = some s) := by
  refine ⟨?_, ?_, ?_⟩
  · intro rpc cache publicId snap h
    rw [fetchIdentitySnapshot, h]
  · intro rpc cache publicId h
    rw [fetchIdentitySnapshot, h]
    refine ⟨_, rfl, rfl, rfl, ?_⟩
    rw [cacheLookup]
    simp [List.find?_cons_of_pos]
  · intro rpc cache publicId publicId2 s h
    rw [fetchIdentitySnapshot]
    cases hl : cacheLookup cache publicId with
    | some snap => exact h
    | none =>
      have hne : publicId ≠ publicId2 := by
        intro heq
        rw [heq, h] at hl
        cases hl
      rw [cacheLookup, List.find?_cons_of_neg _ (by simp [hne])]
      exact h

def rpcC9 : RpcEnv :=
  { getBalanceByIdentity := fun _ => .ok { balance := { balance := "42" } }
    getOwnedAssets := fun _ => .error "rpc down" }

def snapC9 : IdentitySnapshot := { balance := some { balance := "7" } }

/-- Witness for C9 at concrete inputs. -/
theorem claim_C9_witness :
    fetchIdentitySnapshot rpcC9 [("CACHED", snapC9)] "CACHED" =
      (snapC9, [("CACHED", snapC9)], false) ∧
    (∃ snap,
      fetchIdentitySnapshot rpcC9 [("CACHED", snapC9)] "FRESH" =
        (snap, ("FRESH", snap) :: [("CACHED", snapC9)], true) ∧
      snap.balance = (extOption (rpcC9.getBalanceByIdentity "FRESH")).map
        (fun b => b.balance) ∧
      snap.ownedAssets = (extOption (rpcC9.getOwnedAssets "FRESH")).map
        (fun a => a.ownedAssets) ∧
      cacheLookup (("FRESH", snap) :: [("CACHED", snapC9)]) "FRESH" = some snap) ∧
    cacheLookup (fetchIdentitySnapshot rpcC9 [("CACHED", snapC9)] "FRESH").2.1 "CACHED" =
      some snapC9 :=
  ⟨claim_C9.1 rpcC9 [("CACHED", snapC9)] "CACHED" snapC9 rfl,
   claim_C9.2.1 rpcC9 [("CACHED", snapC9)] "FRESH" rfl,
   claim_C9.2.2 rpcC9 [("CACHED", snapC9)] "FRESH" "CACHED" snapC9 rfl⟩

end QubicWalletConnect
